import Mathlib

/-!
Verification of the canvelete-cli render/watch/profile subsystems.

Shallow embedding of:
* the `renders status --wait` polling loop (src/unnamed/part_001, lines 189-224),
* the watch debounce engine (src/unnamed/part_003, lines 36-108),
* the directory-watch engine (src/unnamed/part_003, lines 126-214),
* the batch-render loop (src/unnamed/part_001, lines 299-328),
* the config/profile stores (src/src/output.js appended config section, and
  src/src/commands/profiles.js),
* the API client request constructors (src/src/client.js).

JavaScript truthiness is modelled explicitly: an absent value is `none`, an
empty string and the integer 0 are falsy.
-/

/-! ## Render job polling: the renders status --wait loop -/

/-- A polled render job as returned by getRenderStatus (client.js line 146). -/
structure RenderJob where
  status : String
  outputUrl : Option String
  errMsg : Option String
deriving DecidableEq, Repr

/-- Terminal statuses per the wait loop: completed or failed. -/
def RenderJob.isTerminal (j : RenderJob) : Bool :=
  j.status == "completed" || j.status == "failed"

/-- Outcome of the wait loop: return on completed, exit(1) on failed,
exit(1) with a timeout message when the while-condition stops holding. -/
inductive WaitResult where
  | completed (job : RenderJob)
  | failed (job : RenderJob)
  | timedOut
deriving DecidableEq, Repr

/-- The poll interval hard-coded in the wait loop (part_001 line 193). -/
def pollIntervalMs : Nat := 2000

/-- The wait loop of part_001 lines 196-219.  `poll k` is the job observed by
the k-th call to getRenderStatus.  Polls are modelled as instantaneous and the
inter-poll sleep as exactly `interval`, so the k-th poll happens at elapsed
time `k * interval`; the while-condition admits poll k iff
`k * interval < timeout`.  The returned Nat is the number of polls issued.
`fuel` bounds the recursion and is chosen large enough in waitForCompletion. -/
def waitGo (poll : Nat → RenderJob) (timeout interval : Nat) : Nat → Nat → WaitResult × Nat
  | 0, k => (WaitResult.timedOut, k)
  | fuel + 1, k =>
    if k * interval < timeout then
      if (poll k).status == "completed" then (WaitResult.completed (poll k), k + 1)
      else if (poll k).status == "failed" then (WaitResult.failed (poll k), k + 1)
      else waitGo poll timeout interval fuel (k + 1)
    else (WaitResult.timedOut, k)

/-- `renders status --wait`: loop until a terminal status or timeout. -/
def waitForCompletion (poll : Nat → RenderJob) (timeout interval : Nat) : WaitResult × Nat :=
  waitGo poll timeout interval (timeout / interval + 1) 0

/-- Helper: when every poll is non-terminal the loop always times out after
exactly ceil(timeout / interval) polls, provided the fuel covers the window. -/
theorem waitGo_all_nonterminal (poll : Nat → RenderJob) (timeout interval : Nat)
    (hi : 0 < interval) (hnt : ∀ j, (poll j).isTerminal = false) :
    ∀ fuel k, timeout ≤ (k + fuel) * interval →
      k ≤ (timeout + interval - 1) / interval →
      waitGo poll timeout interval fuel k =
        (WaitResult.timedOut, (timeout + interval - 1) / interval) := by
  intro fuel
  induction fuel with
  | zero =>
    intro k hcov hk
    have hle : timeout ≤ k * interval := by simpa using hcov
    have hceil : (timeout + interval - 1) / interval ≤ k := by
      have h1 : timeout + interval - 1 < (k + 1) * interval := by
        have : timeout + interval - 1 ≤ k * interval + interval - 1 :=
          Nat.sub_le_sub_right (Nat.add_le_add_right hle interval) 1
        have h2 : k * interval + interval - 1 < k * interval + interval := by
          have : 0 < k * interval + interval := by positivity
          omega
        calc timeout + interval - 1 ≤ k * interval + interval - 1 := this
          _ < k * interval + interval := h2
          _ = (k + 1) * interval := by ring
      have := (Nat.div_lt_iff_lt_mul hi).mpr h1
      omega
    have hkeq : k = (timeout + interval - 1) / interval := le_antisymm hk hceil
    simp [waitGo, hkeq]
  | succ fuel ih =>
    intro k hcov hk
    by_cases hlt : k * interval < timeout
    · have hb1 : ((poll k).status == "completed") = false := by
        have := hnt k
        unfold RenderJob.isTerminal at this
        exact (Bool.or_eq_false_iff.mp this).1
      have hb2 : ((poll k).status == "failed") = false := by
        have := hnt k
        unfold RenderJob.isTerminal at this
        exact (Bool.or_eq_false_iff.mp this).2
      have hknext : k + 1 ≤ (timeout + interval - 1) / interval := by
        rw [Nat.le_div_iff_mul_le hi]
        have ht0 : 0 < timeout := by
          have : 0 ≤ k * interval := Nat.zero_le _
          omega
        have : k * interval + 1 ≤ timeout := hlt
        calc (k + 1) * interval = k * interval + interval := by ring
          _ ≤ timeout - 1 + interval := by omega
          _ = timeout + interval - 1 := by omega
      have hcov' : timeout ≤ (k + 1 + fuel) * interval := by
        have : k + (fuel + 1) = k + 1 + fuel := by omega
        rw [← this]; exact hcov
      simp only [waitGo, hlt, if_true, hb1, hb2, if_false, Bool.false_eq_true]
      exact ih (k + 1) hcov' hknext
    · have hle : timeout ≤ k * interval := Nat.le_of_not_lt hlt
      have hceil : (timeout + interval - 1) / interval ≤ k := by
        have h1 : timeout + interval - 1 < (k + 1) * interval := by
          have h2 : timeout + interval - 1 ≤ k * interval + interval - 1 :=
            Nat.sub_le_sub_right (Nat.add_le_add_right hle interval) 1
          have h3 : k * interval + interval - 1 < k * interval + interval := by
            have : 0 < k * interval + interval := by positivity
            omega
          calc timeout + interval - 1 ≤ k * interval + interval - 1 := h2
            _ < k * interval + interval := h3
            _ = (k + 1) * interval := by ring
        have := (Nat.div_lt_iff_lt_mul hi).mpr h1
        omega
      have hkeq : k = (timeout + interval - 1) / interval := le_antisymm hk hceil
      subst hkeq
      simp [waitGo, hlt]

/-- Claim C3: when every polled status within timeoutMs is non-terminal, the
wait loop times out, having issued exactly ceil(timeoutMs / pollIntervalMs)
polls, which lies within one of timeoutMs / pollIntervalMs; the default poll
interval is 2000 ms. -/
theorem waitForCompletion_timeout (poll : Nat → RenderJob) (timeout interval : Nat)
    (hi : 0 < interval) (hnt : ∀ j, (poll j).isTerminal = false) :
    (waitForCompletion poll timeout interval).1 = WaitResult.timedOut ∧
    (waitForCompletion poll timeout interval).2 = (timeout + interval - 1) / interval ∧
    timeout / interval ≤ (waitForCompletion poll timeout interval).2 ∧
    (waitForCompletion poll timeout interval).2 ≤ timeout / interval + 1 ∧
    pollIntervalMs = 2000 := by
  have hcov : timeout ≤ (0 + (timeout / interval + 1)) * interval := by
    have h1 : timeout < (timeout / interval + 1) * interval :=
      (Nat.div_lt_iff_lt_mul hi).mp (by omega)
    rw [Nat.zero_add]
    exact Nat.le_of_lt h1
  have key := waitGo_all_nonterminal poll timeout interval hi hnt
      (timeout / interval + 1) 0 hcov (Nat.zero_le _)
  have hlow : timeout / interval ≤ (timeout + interval - 1) / interval :=
    Nat.div_le_div_right (by omega)
  have hhigh : (timeout + interval - 1) / interval ≤ timeout / interval + 1 := by
    have h1 : timeout + interval - 1 ≤ timeout + interval := by omega
    have h2 : (timeout + interval - 1) / interval ≤ (timeout + interval) / interval :=
      Nat.div_le_div_right h1
    have h3 : (timeout + interval) / interval = timeout / interval + 1 :=
      Nat.add_div_right timeout hi
    omega
  refine ⟨?_, ?_, ?_, ?_, rfl⟩
  · unfold waitForCompletion; rw [key]
  · unfold waitForCompletion; rw [key]
  · unfold waitForCompletion; rw [key]; exact hlow
  · unfold waitForCompletion; rw [key]; exact hhigh

/-- Witness for C3: a job that always reports processing under a 5 s timeout
and 2 s interval is polled exactly 3 times and times out. -/
theorem waitForCompletion_timeout_witness :
    (waitForCompletion (fun _ => ⟨"processing", none, none⟩) 5000 2000).1 =
        WaitResult.timedOut ∧
    (waitForCompletion (fun _ => ⟨"processing", none, none⟩) 5000 2000).2 =
        (5000 + 2000 - 1) / 2000 ∧
    5000 / 2000 ≤ (waitForCompletion (fun _ => ⟨"processing", none, none⟩) 5000 2000).2 ∧
    (waitForCompletion (fun _ => ⟨"processing", none, none⟩) 5000 2000).2 ≤ 5000 / 2000 + 1 ∧
    pollIntervalMs = 2000 :=
  waitForCompletion_timeout (fun _ => ⟨"processing", none, none⟩) 5000 2000
    (by decide) (fun _ => rfl)

/-- Helper: the wait loop passes over an initial block of non-terminal polls
that all fall inside the timeout window. -/
theorem waitGo_skip (poll : Nat → RenderJob) (timeout interval : Nat)
    (hi : 0 < interval) :
    ∀ (m fuel k : Nat), (∀ j, j < m → (poll (k + j)).isTerminal = false) →
      (k + m) * interval ≤ timeout →
      waitGo poll timeout interval (fuel + m) k = waitGo poll timeout interval fuel (k + m) := by
  intro m
  induction m with
  | zero => intro fuel k _ _; rfl
  | succ m ih =>
    intro fuel k hnt hcov
    have hlt : k * interval < timeout := by
      have h1 : k * interval < (k + (m + 1)) * interval :=
        (Nat.mul_lt_mul_right hi).mpr (by omega)
      omega
    have hb1 : ((poll k).status == "completed") = false := by
      have h0 := hnt 0 (by omega)
      rw [Nat.add_zero] at h0
      unfold RenderJob.isTerminal at h0
      exact (Bool.or_eq_false_iff.mp h0).1
    have hb2 : ((poll k).status == "failed") = false := by
      have h0 := hnt 0 (by omega)
      rw [Nat.add_zero] at h0
      unfold RenderJob.isTerminal at h0
      exact (Bool.or_eq_false_iff.mp h0).2
    have hstep : fuel + (m + 1) = (fuel + m) + 1 := by omega
    rw [hstep]
    simp only [waitGo, hlt, if_true, hb1, hb2, Bool.false_eq_true, if_false]
    have hrec := ih fuel (k + 1)
        (fun j hj => by
          have := hnt (j + 1) (by omega)
          rwa [show k + (j + 1) = k + 1 + j by omega] at this)
        (by rwa [show k + 1 + m = k + (m + 1) by omega])
    rw [hrec, show k + 1 + m = k + (m + 1) by omega]

/-- Claim C2: the wait loop returns the terminal job the moment a poll
observes completed (return) or failed (exit), and issues exactly k + 1 polls
when poll k is the first terminal one - no poll after a terminal status. -/
theorem waitForCompletion_terminal (poll : Nat → RenderJob) (timeout interval k : Nat)
    (hi : 0 < interval) (hpre : ∀ j, j < k → (poll j).isTerminal = false)
    (hin : k * interval < timeout) (hterm : (poll k).isTerminal = true) :
    (waitForCompletion poll timeout interval).2 = k + 1 ∧
    ((poll k).status = "completed" →
      (waitForCompletion poll timeout interval).1 = WaitResult.completed (poll k)) ∧
    ((poll k).status ≠ "completed" →
      (waitForCompletion poll timeout interval).1 = WaitResult.failed (poll k)) := by
  have hk : k ≤ timeout / interval := (Nat.le_div_iff_mul_le hi).mpr (Nat.le_of_lt hin)
  have hfuel : timeout / interval + 1 = (timeout / interval - k + 1) + k := by omega
  have hskip := waitGo_skip poll timeout interval hi k (timeout / interval - k + 1) 0
      (fun j hj => by rw [Nat.zero_add]; exact hpre j hj)
      (by rw [Nat.zero_add]; exact Nat.le_of_lt hin)
  rw [Nat.zero_add] at hskip
  unfold waitForCompletion
  rw [hfuel, hskip]
  by_cases hc : (poll k).status = "completed"
  · have hb : ((poll k).status == "completed") = true := beq_iff_eq.mpr hc
    refine ⟨?_, fun _ => ?_, fun hnc => absurd hc hnc⟩ <;>
      simp [waitGo, hin, hb]
  · have hb : ((poll k).status == "completed") = false := by
      exact beq_eq_false_iff_ne.mpr hc
    have hf : (poll k).status = "failed" := by
      unfold RenderJob.isTerminal at hterm
      rcases Bool.or_eq_true_iff.mp hterm with h | h
      · exact absurd (beq_iff_eq.mp h) hc
      · exact beq_iff_eq.mp h
    have hbf : ((poll k).status == "failed") = true := beq_iff_eq.mpr hf
    refine ⟨?_, fun hcc => absurd hcc hc, fun _ => ?_⟩ <;>
      simp [waitGo, hin, hb, hbf]

/-- Witness for C2: the third poll (index 2) reports completed under a 300 s
timeout; the loop stops with exactly 3 polls and returns that job. -/
theorem waitForCompletion_terminal_witness :
    (waitForCompletion
        (fun j => if j = 2 then ⟨"completed", some "url", none⟩
                  else ⟨"processing", none, none⟩) 300000 2000).2 = 3 ∧
    (waitForCompletion
        (fun j => if j = 2 then ⟨"completed", some "url", none⟩
                  else ⟨"processing", none, none⟩) 300000 2000).1 =
      WaitResult.completed ⟨"completed", some "url", none⟩ := by
  have h := waitForCompletion_terminal
      (fun j => if j = 2 then ⟨"completed", some "url", none⟩
                else ⟨"processing", none, none⟩) 300000 2000 2
      (by decide)
      (fun j hj => by rcases j with _ | _ | j
                      · rfl
                      · rfl
                      · omega)
      (by decide) rfl
  exact ⟨h.1, h.2.1 rfl⟩

/-! ## Watch engine: debounce on a single data file (part_003 lines 36-108) -/

/-- Evolution of the debounce timer of the fs.watch change handler
(part_003 lines 100-108).  The first argument of the recursion is the pending
timer deadline (`debounceTimer`), the list holds the times of the incoming
change events in arrival order.  On each change event the handler clears any
pending timer and arms a fresh one `debounceMs` later; a pending deadline that
is not later than the next event has already fired and is emitted.  The
result is the list of times at which the timer callback (render) fires. -/
def fireTimes (debounceMs : Nat) : Option Nat → List Nat → List Nat
  | none, [] => []
  | some d, [] => [d]
  | none, t :: ts => fireTimes debounceMs (some (t + debounceMs)) ts
  | some d, t :: ts =>
    if d ≤ t then d :: fireTimes debounceMs (some (t + debounceMs)) ts
    else fireTimes debounceMs (some (t + debounceMs)) ts

/-- The data file's content at time t: the payload of the last change event no
later than t, else the initial content (render does fs.readFileSync at fire
time, part_003 line 51). -/
def contentAt (init : String) (events : List (Nat × String)) (t : Nat) : String :=
  (events.filter (fun e => decide (e.1 ≤ t))).foldl (fun _ e => e.2) init

/-- Helper: while every remaining change event arrives before the pending
deadline (and before every deadline it re-arms), no intermediate fire happens
and the single fire uses the deadline armed by the last event. -/
theorem fireTimes_pending (debounceMs : Nat) :
    ∀ (us : List Nat) (d B : Nat), (∀ u ∈ us, u ≤ B ∧ B < u + debounceMs) → B < d →
      fireTimes debounceMs (some d) us = [us.foldl (fun _ u => u + debounceMs) d] := by
  intro us
  induction us with
  | nil => intro d B _ _; rfl
  | cons u us ih =>
    intro d B hb hd
    have hu := hb u (List.mem_cons_self u us)
    have hnotle : ¬ d ≤ u := by omega
    have hrec := ih (u + debounceMs) B (fun v hv => hb v (List.mem_cons_of_mem u hv))
        (by omega)
    simp only [fireTimes, hnotle, if_false, List.foldl_cons]
    exact hrec

/-- Helper: the deadline accumulated over the event times is the last event's
time plus the debounce interval. -/
theorem foldl_deadline (debounceMs : Nat) :
    ∀ (es : List (Nat × String)) (e : Nat × String),
      (es.map Prod.fst).foldl (fun _ u => u + debounceMs) (e.1 + debounceMs) =
        (es.getLastD e).1 + debounceMs := by
  intro es
  induction es with
  | nil => intro e; rfl
  | cons x es ih =>
    intro e
    rw [List.getLastD_cons]
    simpa using ih x

/-- Helper: folding a keep-the-newest accumulator over all events yields the
last event's payload. -/
theorem foldl_lastContent :
    ∀ (es : List (Nat × String)) (e : Nat × String) (init : String),
      ((e :: es).foldl (fun _ x => x.2) init) = (es.getLastD e).2 := by
  intro es
  induction es with
  | nil => intro e init; rfl
  | cons x es ih =>
    intro e init
    rw [List.getLastD_cons]
    simpa using ih x e.2

/-- Claim C4: N >= 1 change events all inside a window shorter than the
debounce interval (B bounds every event time and lies less than debounceMs
after each of them) produce exactly one render fire, at lastEvent + debounceMs,
and the content read by that render is the last event's payload. -/
theorem debounce_single_render (debounceMs : Nat) (e : Nat × String)
    (es : List (Nat × String)) (init : String) (B : Nat)
    (hball : ∀ x ∈ e :: es, x.1 ≤ B) (hwin : ∀ x ∈ e :: es, B < x.1 + debounceMs) :
    fireTimes debounceMs none ((e :: es).map Prod.fst) =
      [(es.getLastD e).1 + debounceMs] ∧
    contentAt init (e :: es) ((es.getLastD e).1 + debounceMs) = (es.getLastD e).2 := by
  constructor
  · have h1 : fireTimes debounceMs none ((e :: es).map Prod.fst) =
        fireTimes debounceMs (some (e.1 + debounceMs)) (es.map Prod.fst) := rfl
    rw [h1, fireTimes_pending debounceMs (es.map Prod.fst) (e.1 + debounceMs) B
        (fun u hu => by
          rcases List.mem_map.mp hu with ⟨x, hx, hxe⟩
          subst hxe
          exact ⟨hball x (List.mem_cons_of_mem e hx), hwin x (List.mem_cons_of_mem e hx)⟩)
        (hwin e (List.mem_cons_self e es)),
      foldl_deadline]
  · have hlastmem : es.getLastD e ∈ e :: es := List.getLastD_mem_cons es e
    have hfire : ∀ x ∈ e :: es, decide (x.1 ≤ (es.getLastD e).1 + debounceMs) = true := by
      intro x hx
      have h1 := hball x hx
      have h2 := hwin (es.getLastD e) hlastmem
      simp only [decide_eq_true_eq]
      omega
    unfold contentAt
    rw [List.filter_eq_self.mpr hfire]
    exact foldl_lastContent es e init

/-- Witness for C4: three change events at 0, 100, 300 ms under a 500 ms
debounce yield a single fire at 800 ms that reads the payload written at
300 ms. -/
theorem debounce_single_render_witness :
    fireTimes 500 none [0, 100, 300] = [800] ∧
    contentAt "i" [(0, "a"), (100, "b"), (300, "c")] 800 = "c" :=
  debounce_single_render 500 (0, "a") [(100, "b"), (300, "c")] "i" 300
    (by decide) (by decide)

/-! ## Watch engine: render concurrency (part_003 lines 36-108)

The watch action keeps only `debounceTimer` and `renderCount`; there is no
"rendering" flag.  `render` is async: its HTTP call suspends, so between the
start of a render and its completion the event loop is free to run further
change callbacks and timer callbacks.  We model a session as a timed trace of
three atomic callback executions: a change event (clear + re-arm the timer),
a timer fire (start `render`, unconditionally), and the completion of an
in-flight render.  Traces must be time-monotone and may not skip past a
pending timer deadline. -/

/-- A pending timer deadline permits an event at time t only if the deadline
has not passed yet (otherwise the timer callback would have run first). -/
def timerAllows (timer : Option Nat) (t : Nat) : Prop :=
  match timer with
  | none => True
  | some d => t ≤ d

instance (timer : Option Nat) (t : Nat) : Decidable (timerAllows timer t) :=
  match timer with
  | none => isTrue trivial
  | some d => Nat.decLe t d

/-- Atomic callback executions of one watch session, with their times. -/
inductive WatchEv where
  | change (t : Nat)
  | fire (t : Nat)
  | renderDone (t : Nat)
deriving DecidableEq, Repr

/-- Watch session state: the armed debounce deadline, the number of renders
in flight (started, HTTP not yet answered), and the time of the last step. -/
structure WatchSt where
  timer : Option Nat
  inFlight : Nat
  now : Nat
deriving DecidableEq, Repr

/-- One callback execution.  change: `clearTimeout` + `setTimeout(render,
debounceMs)` (part_003 lines 100-108).  fire: the timer callback invokes
`render`, which starts unconditionally - the code consults no flag before
rendering.  renderDone: an in-flight `client.render` resolves.  `none` marks
an inadmissible step (wrong time order, spurious fire). -/
def watchStep (debounceMs : Nat) (s : WatchSt) : WatchEv → Option WatchSt
  | WatchEv.change t =>
    if s.now ≤ t ∧ timerAllows s.timer t then
      some { timer := some (t + debounceMs), inFlight := s.inFlight, now := t }
    else none
  | WatchEv.fire t =>
    if s.timer = some t ∧ s.now ≤ t then
      some { timer := none, inFlight := s.inFlight + 1, now := t }
    else none
  | WatchEv.renderDone t =>
    if 0 < s.inFlight ∧ s.now ≤ t ∧ timerAllows s.timer t then
      some { timer := s.timer, inFlight := s.inFlight - 1, now := t }
    else none

/-- A whole watch session on a single data file, from the idle initial state. -/
def runWatch (debounceMs : Nat) (evs : List WatchEv) : Option WatchSt :=
  evs.foldlM (watchStep debounceMs) { timer := none, inFlight := 0, now := 0 }

/-- Counterexample to C1: the claim "no two renders for the same watch target
ever run concurrently; a debounce fire during an in-flight render is deferred
or queued" is false for the code.  With a 500 ms debounce, a change at 0 fires
a render at 500; a change at 600 re-arms the timer, which fires at 1100 while
the first render is still in flight - the session reaches two concurrent
in-flight renders. -/
theorem watch_not_serialized_counterexample :
    ¬ (∀ (evs : List WatchEv) (s : WatchSt),
        runWatch 500 evs = some s → s.inFlight ≤ 1) := by
  intro h
  have h2 := h [WatchEv.change 0, WatchEv.fire 500, WatchEv.change 600, WatchEv.fire 1100]
      { timer := none, inFlight := 2, now := 1100 } (by decide)
  exact absurd h2 (by decide)

/-- Amended C1: the watch engine does not serialize renders.  A debounce fire
starts a render immediately and unconditionally - whatever the number of
in-flight renders, the fire step is admissible and increments the in-flight
count; nothing is deferred or queued. -/
theorem watch_fire_starts_render (debounceMs : Nat) (s : WatchSt) (t : Nat)
    (ht : s.timer = some t) (hn : s.now ≤ t) :
    watchStep debounceMs s (WatchEv.fire t) =
      some { timer := none, inFlight := s.inFlight + 1, now := t } := by
  simp only [watchStep]
  rw [if_pos ⟨ht, hn⟩]

/-- Witness for the amended C1: from a state with one render already in
flight and the timer due at 1100 ms, the fire step starts a second concurrent
render. -/
theorem watch_fire_starts_render_witness :
    watchStep 500 { timer := some 1100, inFlight := 1, now := 600 }
        (WatchEv.fire 1100) =
      some { timer := none, inFlight := 2, now := 1100 } :=
  watch_fire_starts_render 500 { timer := some 1100, inFlight := 1, now := 600 }
    1100 rfl (by decide)

/-! ## Config and profile stores (src/src/output.js config section,
src/src/commands/profiles.js)

The persisted state: the profiles map and the active-profile pointer
(profiles.js Conf store) plus the legacy single apiKey field of the main
config store, which `profiles use` writes through.  The CANVELETE_API_KEY
environment override is a parameter; an unset variable is the falsy "". -/

/-- A stored profile (profiles.js lines 109-114). -/
structure Profile where
  apiKey : String
  description : String
  baseUrl : String
  createdAt : String
deriving DecidableEq, Repr

/-- The two Conf stores as one record: the named profiles with the active
pointer, and the main config's apiKey field. -/
structure ProfileStore where
  profiles : List (String × Profile)
  activeProfile : String
  configApiKey : String
deriving DecidableEq, Repr

/-- config.js getApiKey: the environment override if truthy, else the stored
config key. -/
def getApiKey (env : String) (st : ProfileStore) : String :=
  if env ≠ "" then env else st.configApiKey

/-- config.js setApiKey. -/
def setApiKey (st : ProfileStore) (key : String) : ProfileStore :=
  { st with configApiKey := key }

/-- profiles.js getProfileApiKey (lines 277-283): the active profile's key if
truthy, else fall back to config.js getApiKey. -/
def getProfileApiKey (env : String) (st : ProfileStore) : String :=
  match st.profiles.lookup st.activeProfile with
  | some p => if p.apiKey ≠ "" then p.apiKey else getApiKey env st
  | none => getApiKey env st

/-- The `profiles use <name>` command (profiles.js lines 179-195): on an
unknown name it errors and exits without touching either store; on a known
name it repoints activeProfile and writes the profile's key through to the
config store. -/
def switchProfile (st : ProfileStore) (name : String) : Except String ProfileStore :=
  match st.profiles.lookup name with
  | none => Except.error "NotFoundError"
  | some p => Except.ok (setApiKey { st with activeProfile := name } p.apiKey)

/-- Counterexample to C5: the claim says the environment override wins over
the active profile's stored key, but getProfileApiKey consults the active
profile's key first - with the override "env-key" set and the active profile
holding "profile-key", it returns "profile-key". -/
theorem getProfileApiKey_env_not_first_counterexample :
    ¬ (∀ (env : String) (st : ProfileStore), env ≠ "" →
        getProfileApiKey env st = env) := by
  intro h
  have h2 := h "env-key"
      { profiles := [("prod", ⟨"profile-key", "", "https://www.canvelete.com", ""⟩)],
        activeProfile := "prod", configApiKey := "config-key" }
      (by decide)
  exact absurd h2 (by decide)

/-- Amended C5: getProfileApiKey resolves the active profile's stored key
first; only when the active profile is absent or its key empty does the
environment override apply, and the legacy config field is consulted last,
when the override is also unset.  (getApiKey itself - what the API client
uses - resolves the override before the config field.) -/
theorem getProfileApiKey_resolution (env : String) (st : ProfileStore) :
    (∀ p, st.profiles.lookup st.activeProfile = some p → p.apiKey ≠ "" →
      getProfileApiKey env st = p.apiKey) ∧
    (st.profiles.lookup st.activeProfile = none →
      getProfileApiKey env st = getApiKey env st) ∧
    (∀ p, st.profiles.lookup st.activeProfile = some p → p.apiKey = "" →
      getProfileApiKey env st = getApiKey env st) ∧
    (env ≠ "" → getApiKey env st = env) ∧
    (env = "" → getApiKey env st = st.configApiKey) := by
  refine ⟨?_, ?_, ?_, ?_, ?_⟩
  · intro p hp hkey
    unfold getProfileApiKey
    rw [hp]
    simp [hkey]
  · intro hp
    unfold getProfileApiKey
    rw [hp]
  · intro p hp hkey
    unfold getProfileApiKey
    rw [hp]
    simp [hkey]
  · intro henv
    unfold getApiKey
    simp [henv]
  · intro henv
    unfold getApiKey
    simp [henv]

/-- Witness for the amended C5: with override "env-key" set and active
profile key "profile-key", the resolved key is the profile's; getApiKey alone
resolves to the override. -/
theorem getProfileApiKey_resolution_witness :
    getProfileApiKey "env-key"
      { profiles := [("prod", ⟨"profile-key", "", "https://www.canvelete.com", ""⟩)],
        activeProfile := "prod", configApiKey := "config-key" } = "profile-key" ∧
    getApiKey "env-key"
      { profiles := [("prod", ⟨"profile-key", "", "https://www.canvelete.com", ""⟩)],
        activeProfile := "prod", configApiKey := "config-key" } = "env-key" := by
  refine ⟨?_, ?_⟩
  · exact (getProfileApiKey_resolution "env-key"
      { profiles := [("prod", ⟨"profile-key", "", "https://www.canvelete.com", ""⟩)],
        activeProfile := "prod", configApiKey := "config-key" }).1
      ⟨"profile-key", "", "https://www.canvelete.com", ""⟩ rfl (by decide)
  · exact (getProfileApiKey_resolution "env-key"
      { profiles := [("prod", ⟨"profile-key", "", "https://www.canvelete.com", ""⟩)],
        activeProfile := "prod", configApiKey := "config-key" }).2.2.2.1 (by decide)

/-- Claim C6: switching to an existing profile repoints the active profile
and makes the effective key (absent an environment override) that profile's
stored key, immediately visible to both resolvers, with the profiles map
untouched; switching to an absent name raises NotFoundError, and the command
performs no write in that branch, so the store is unchanged. -/
theorem switchProfile_spec (st : ProfileStore) (name : String) :
    (∀ p, st.profiles.lookup name = some p →
      ∃ st', switchProfile st name = Except.ok st' ∧
        st'.activeProfile = name ∧
        getApiKey "" st' = p.apiKey ∧
        getProfileApiKey "" st' = p.apiKey ∧
        st'.profiles = st.profiles) ∧
    (st.profiles.lookup name = none →
      switchProfile st name = Except.error "NotFoundError") := by
  constructor
  · intro p hp
    refine ⟨setApiKey { st with activeProfile := name } p.apiKey, ?_, rfl, ?_, ?_, rfl⟩
    · unfold switchProfile
      rw [hp]
    · unfold getApiKey setApiKey
      simp
    · unfold getProfileApiKey
      have hlook : (setApiKey { st with activeProfile := name }
          p.apiKey).profiles.lookup (setApiKey { st with activeProfile := name }
            p.apiKey).activeProfile = some p := hp
      rw [hlook]
      by_cases hk : p.apiKey = ""
      · simp [hk, getApiKey, setApiKey]
      · simp [hk]
  · intro hp
    unfold switchProfile
    rw [hp]

/-- Witness for C6: switching to the stored "prod" profile succeeds and makes
both resolvers return its key; switching to the absent "qa" raises
NotFoundError. -/
theorem switchProfile_spec_witness :
    (∃ st', switchProfile
        { profiles := [("prod", ⟨"prod-key", "", "https://www.canvelete.com", ""⟩)],
          activeProfile := "default", configApiKey := "old-key" } "prod" =
          Except.ok st' ∧
        st'.activeProfile = "prod" ∧
        getApiKey "" st' = "prod-key" ∧
        getProfileApiKey "" st' = "prod-key" ∧
        st'.profiles =
          ({ profiles := [("prod", ⟨"prod-key", "", "https://www.canvelete.com", ""⟩)],
             activeProfile := "default", configApiKey := "old-key" } :
            ProfileStore).profiles) ∧
    switchProfile
      { profiles := [("prod", ⟨"prod-key", "", "https://www.canvelete.com", ""⟩)],
        activeProfile := "default", configApiKey := "old-key" } "qa" =
      Except.error "NotFoundError" :=
  ⟨(switchProfile_spec
      { profiles := [("prod", ⟨"prod-key", "", "https://www.canvelete.com", ""⟩)],
        activeProfile := "default", configApiKey := "old-key" } "prod").1
      ⟨"prod-key", "", "https://www.canvelete.com", ""⟩ rfl,
   (switchProfile_spec
      { profiles := [("prod", ⟨"prod-key", "", "https://www.canvelete.com", ""⟩)],
        activeProfile := "default", configApiKey := "old-key" } "qa").2 rfl⟩

/-! ## Batch engine (part_001 lines 299-328) -/

/-- One batch entry together with the outcome its render call would have:
ok with the payload size, or the thrown error message. -/
structure BatchItem where
  designId : String
  outcome : Except String Nat
deriving Repr

/-- The running tallies and the ids attempted so far, in order. -/
structure BatchSummary where
  attempted : List String
  completed : Nat
  failed : Nat
deriving Repr

/-- The batch-render for-loop: every config is attempted; a throwing render
is caught, counted as failed, and the loop continues with the next item. -/
def batchRender (configs : List BatchItem) : BatchSummary :=
  configs.foldl
    (fun acc c =>
      match c.outcome with
      | Except.ok _ =>
        { attempted := acc.attempted ++ [c.designId],
          completed := acc.completed + 1, failed := acc.failed }
      | Except.error _ =>
        { attempted := acc.attempted ++ [c.designId],
          completed := acc.completed, failed := acc.failed + 1 })
    { attempted := [], completed := 0, failed := 0 }

/-- Whether an item's render call throws. -/
def BatchItem.isFailure (c : BatchItem) : Bool :=
  match c.outcome with
  | Except.ok _ => false
  | Except.error _ => true

/-- Helper: the batch fold, from an arbitrary accumulator. -/
theorem batchRender_foldl (configs : List BatchItem) :
    ∀ acc : BatchSummary,
      configs.foldl
        (fun acc c =>
          match c.outcome with
          | Except.ok _ =>
            { attempted := acc.attempted ++ [c.designId],
              completed := acc.completed + 1, failed := acc.failed }
          | Except.error _ =>
            { attempted := acc.attempted ++ [c.designId],
              completed := acc.completed, failed := acc.failed + 1 })
        acc =
      { attempted := acc.attempted ++ configs.map (fun c => c.designId),
        completed := acc.completed +
          (configs.filter (fun c => ! c.isFailure)).length,
        failed := acc.failed + (configs.filter (fun c => c.isFailure)).length } := by
  induction configs with
  | nil => intro acc; simp
  | cons c cs ih =>
    intro acc
    rcases hc : c.outcome with v | e <;>
      simp only [List.foldl_cons, hc, List.map_cons, List.filter_cons,
        BatchItem.isFailure, hc, Bool.not_false, Bool.not_true, ih] <;>
      simp [List.append_assoc] <;>
      omega

/-- Helper: items that fail and items that succeed partition the batch. -/
theorem batch_partition_length (l : List BatchItem) :
    (l.filter (fun c => ! c.isFailure)).length +
      (l.filter (fun c => c.isFailure)).length = l.length := by
  induction l with
  | nil => rfl
  | cons c cs ih =>
    cases hc : c.isFailure <;>
      simp only [List.filter_cons, hc, Bool.not_false, Bool.not_true, if_true, if_false,
        List.length_cons, Bool.false_eq_true, Bool.true_eq_false, List.length] <;>
      omega

/-- Claim C7: the batch engine attempts every item in order regardless of
failures, and the final summary counts are exactly (K - failures) succeeded
and failures failed, where K is the number of items. -/
theorem batchRender_spec (configs : List BatchItem) :
    (batchRender configs).attempted = configs.map (fun c => c.designId) ∧
    (batchRender configs).failed =
      (configs.filter (fun c => c.isFailure)).length ∧
    (batchRender configs).completed =
      configs.length - (batchRender configs).failed ∧
    (batchRender configs).completed + (batchRender configs).failed =
      configs.length := by
  unfold batchRender
  rw [batchRender_foldl]
  have h2 := batch_partition_length configs
  refine ⟨by simp, by simp, ?_, ?_⟩ <;> simp only [Nat.zero_add] <;> omega

/-! ## Directory watch (part_003 lines 118-214) -/

/-- Directory-watch session state: the processed-file set and the renders
attempted, in order. -/
structure DirWatchSt where
  processedFiles : List String
  renderLog : List String
deriving DecidableEq, Repr

/-- processFile (part_003 lines 151-187): skip paths already in the set or
not ending in .json; otherwise add to the set first and then attempt the
render (the attempt's success or failure does not affect either field). -/
def processFile (st : DirWatchSt) (filePath : String) : DirWatchSt :=
  if filePath ∈ st.processedFiles then st
  else if filePath.endsWith ".json" then
    { processedFiles := filePath :: st.processedFiles,
      renderLog := st.renderLog ++ [filePath] }
  else st

/-- Startup (part_003 lines 190-196): filter the directory listing to .json
files and process each synchronously, in listing order. -/
def watchDirStartup (listing : List String) : DirWatchSt :=
  (listing.filter (fun f => f.endsWith ".json")).foldl processFile
    { processedFiles := [], renderLog := [] }

/-- The whole session: the fs.watch subscription is registered only after the
startup loop finishes, so event-triggered processing (each event name passes
the handler's .json check and then processFile) starts from the startup
state. -/
def watchDirSession (listing events : List String) : DirWatchSt :=
  events.foldl
    (fun st f => if f.endsWith ".json" then processFile st f else st)
    (watchDirStartup listing)

/-- Helper: processing a block of fresh .json files appends exactly that
block to the log. -/
theorem processFile_foldl_fresh :
    ∀ (l : List String) (st : DirWatchSt), l.Nodup →
      (∀ f ∈ l, f.endsWith ".json" = true) →
      (∀ f ∈ l, f ∉ st.processedFiles) →
      (l.foldl processFile st).renderLog = st.renderLog ++ l := by
  intro l
  induction l with
  | nil => intro st _ _ _; simp
  | cons f fs ih =>
    intro st hnd hjson hfresh
    have hnotin : f ∉ st.processedFiles := hfresh f (List.mem_cons_self f fs)
    have hj : f.endsWith ".json" = true := hjson f (List.mem_cons_self f fs)
    have hstep : processFile st f =
        { processedFiles := f :: st.processedFiles,
          renderLog := st.renderLog ++ [f] } := by
      unfold processFile
      rw [if_neg hnotin, if_pos hj]
    rw [List.foldl_cons, hstep,
      ih _ (List.Nodup.of_cons hnd)
        (fun g hg => hjson g (List.mem_cons_of_mem f hg))
        (fun g hg => by
          simp only [List.mem_cons]
          push_neg
          exact ⟨fun he => (List.nodup_cons.mp hnd).1 (he ▸ hg),
            hfresh g (List.mem_cons_of_mem f hg)⟩)]
    simp

/-- Helper: any further processing only appends to the log. -/
theorem eventFold_log_extends (events : List String) :
    ∀ st : DirWatchSt, ∃ evLog,
      (events.foldl
        (fun st f => if f.endsWith ".json" then processFile st f else st)
        st).renderLog = st.renderLog ++ evLog := by
  induction events with
  | nil => intro st; exact ⟨[], by simp⟩
  | cons f fs ih =>
    intro st
    rw [List.foldl_cons]
    by_cases hj : f.endsWith ".json" = true
    · rw [if_pos hj]
      by_cases hmem : f ∈ st.processedFiles
      · have : processFile st f = st := by unfold processFile; rw [if_pos hmem]
        rw [this]
        exact ih st
      · have hstep : processFile st f =
            { processedFiles := f :: st.processedFiles,
              renderLog := st.renderLog ++ [f] } := by
          unfold processFile
          rw [if_neg hmem, if_pos hj]
        rw [hstep]
        obtain ⟨evLog, hev⟩ := ih ⟨f :: st.processedFiles, st.renderLog ++ [f]⟩
        exact ⟨f :: evLog, by simpa [List.append_assoc] using hev⟩
    · rw [if_neg hj]
      exact ih st

/-- The invariant kept by processFile: the log never repeats and is covered
by the processed-file set. -/
def DirInv (st : DirWatchSt) : Prop :=
  st.renderLog.Nodup ∧ ∀ p ∈ st.renderLog, p ∈ st.processedFiles

/-- Helper: processFile preserves the invariant. -/
theorem processFile_inv (st : DirWatchSt) (f : String) (h : DirInv st) :
    DirInv (processFile st f) := by
  unfold processFile
  by_cases hmem : f ∈ st.processedFiles
  · rw [if_pos hmem]; exact h
  · rw [if_neg hmem]
    by_cases hj : f.endsWith ".json" = true
    · rw [if_pos hj]
      refine ⟨?_, ?_⟩
      · have hfne : f ∉ st.renderLog := fun hin => hmem (h.2 f hin)
        simp [List.nodup_append, h.1, hfne]
      · intro p hp
        simp only [List.mem_append, List.mem_singleton] at hp
        rcases hp with hp | hp
        · exact List.mem_cons_of_mem f (h.2 p hp)
        · rw [hp]; exact List.mem_cons_self f st.processedFiles
    · rw [if_neg hj]; exact h

/-- Helper: any fold of processFile steps preserves the invariant. -/
theorem processFile_foldl_inv :
    ∀ (l : List String) (st : DirWatchSt), DirInv st →
      DirInv (l.foldl processFile st) := by
  intro l
  induction l with
  | nil => intro st h; exact h
  | cons f fs ih =>
    intro st h
    rw [List.foldl_cons]
    exact ih _ (processFile_inv st f h)

/-- Helper: the guarded event fold also preserves the invariant. -/
theorem eventFold_inv (events : List String) :
    ∀ st : DirWatchSt, DirInv st →
      DirInv (events.foldl
        (fun st f => if f.endsWith ".json" then processFile st f else st) st) := by
  induction events with
  | nil => intro st h; exact h
  | cons f fs ih =>
    intro st h
    rw [List.foldl_cons]
    by_cases hj : f.endsWith ".json" = true
    · rw [if_pos hj]; exact ih _ (processFile_inv st f h)
    · rw [if_neg hj]; exact ih _ h

/-- Claim C8: with a duplicate-free directory listing, startup renders
exactly the matching files, once each, in listing order; session processing
only appends after the whole startup block; and the processed-file set keeps
any path from ever being rendered twice across the session. -/
theorem watchDir_spec (listing events : List String) (hnd : listing.Nodup) :
    (watchDirStartup listing).renderLog =
      listing.filter (fun f => f.endsWith ".json") ∧
    (∃ evLog, (watchDirSession listing events).renderLog =
      (watchDirStartup listing).renderLog ++ evLog) ∧
    (watchDirSession listing events).renderLog.Nodup := by
  have hstart : (watchDirStartup listing).renderLog =
      listing.filter (fun f => f.endsWith ".json") := by
    have hfresh := processFile_foldl_fresh
        (listing.filter (fun f => f.endsWith ".json"))
        { processedFiles := [], renderLog := [] }
        (List.Nodup.filter _ hnd)
        (fun f hf => (List.mem_filter.mp hf).2)
        (fun f _ => List.not_mem_nil f)
    unfold watchDirStartup
    rw [hfresh]
    simp
  refine ⟨hstart, ?_, ?_⟩
  · unfold watchDirSession
    exact eventFold_log_extends events (watchDirStartup listing)
  · have hinv0 : DirInv { processedFiles := [], renderLog := [] } :=
      ⟨List.nodup_nil, fun p hp => absurd hp (List.not_mem_nil p)⟩
    have hinv1 : DirInv (watchDirStartup listing) :=
      processFile_foldl_inv _ _ hinv0
    exact (eventFold_inv events _ hinv1).1

/-- Witness for C8: listing [a.json, b.txt, c.json] with later events
[d.json, a.json]: startup renders a.json then c.json, the event phase appends
only d.json, and no file is rendered twice. -/
theorem watchDir_spec_witness :
    (watchDirStartup ["a.json", "b.txt", "c.json"]).renderLog =
      List.filter (fun f => f.endsWith ".json") ["a.json", "b.txt", "c.json"] ∧
    (∃ evLog, (watchDirSession ["a.json", "b.txt", "c.json"]
        ["d.json", "a.json"]).renderLog =
      (watchDirStartup ["a.json", "b.txt", "c.json"]).renderLog ++ evLog) ∧
    (watchDirSession ["a.json", "b.txt", "c.json"]
        ["d.json", "a.json"]).renderLog.Nodup :=
  watchDir_spec ["a.json", "b.txt", "c.json"] ["d.json", "a.json"] (by decide)

/-! ## API client request construction (src/src/client.js) -/

/-- Method and path of a client request (query/body orthogonal to C10). -/
structure ApiRequest where
  method : String
  path : String
deriving DecidableEq, Repr

/-- The option bag accepted by CanveleteAPIClient.render; absent fields are
none, and JS truthiness makes "" and 0 behave as absent. -/
structure RenderOpts where
  designId : Option String
  templateId : Option String
  format : Option String
  quality : Option Int
  dynamicData : Option String
  width : Option Int
  height : Option Int
deriving DecidableEq, Repr

/-- The JSON body POSTed to /api/automation/render. -/
structure RenderBody where
  format : String
  quality : Int
  designId : Option String
  templateId : Option String
  dynamicData : Option String
  width : Option Int
  height : Option Int
deriving DecidableEq, Repr

/-- JS truthiness of an optional string. -/
def strTruthy : Option String → Bool
  | none => false
  | some s => ! (s == "")

/-- JS truthiness of an optional number. -/
def intTruthy : Option Int → Bool
  | none => false
  | some n => ! (n == 0)

namespace CanveleteAPIClient

/-- client.js lines 117-130: the body starts from the format/quality
defaults via JS short-circuit OR, then each optional field is attached only
when truthy. -/
def render (o : RenderOpts) : RenderBody :=
  { format := match o.format with
      | some f => if f = "" then "png" else f
      | none => "png"
  , quality := match o.quality with
      | some q => if q = 0 then 90 else q
      | none => 90
  , designId := if strTruthy o.designId then o.designId else none
  , templateId := if strTruthy o.templateId then o.templateId else none
  , dynamicData := if strTruthy o.dynamicData then o.dynamicData else none
  , width := if intTruthy o.width then o.width else none
  , height := if intTruthy o.height then o.height else none }

/-- client.js lines 78-80. -/
def getDesign (id : String) : ApiRequest :=
  { method := "GET", path := "/api/automation/designs/" ++ id }

/-- client.js lines 112-114. -/
def getTemplate (id : String) : ApiRequest :=
  { method := "GET", path := "/api/automation/designs/" ++ id }

end CanveleteAPIClient

/-- Counterexample to C9: the claim that every quality outside [1,100] is
passed through unmodified fails at quality 0 (reachable via -q 0): the JS
`options.quality || 90` replaces the falsy 0 with the default 90. -/
theorem render_quality_zero_counterexample :
    ¬ (∀ (o : RenderOpts) (q : Int), o.quality = some q → (q < 1 ∨ 100 < q) →
        (CanveleteAPIClient.render o).quality = q) := by
  intro h
  have h2 := h ⟨some "d1", none, some "png", some 0, none, none, none⟩ 0 rfl
      (Or.inl (by decide))
  exact absurd h2 (by decide)

/-- Amended C9: a nonzero quality outside [1,100] is passed through
unmodified; a quality of 0 (falsy), like an absent quality, is replaced by
the default 90.  Width/height are attached only when provided and nonzero -
never defaulted to 0 - and an explicit 0 is likewise omitted. -/
theorem render_body_spec (o : RenderOpts) :
    (∀ q : Int, o.quality = some q → q ≠ 0 →
      (CanveleteAPIClient.render o).quality = q) ∧
    ((o.quality = some 0 ∨ o.quality = none) →
      (CanveleteAPIClient.render o).quality = 90) ∧
    (CanveleteAPIClient.render o).width ≠ some 0 ∧
    (∀ w : Int, o.width = some w → w ≠ 0 →
      (CanveleteAPIClient.render o).width = some w) ∧
    ((o.width = some 0 ∨ o.width = none) →
      (CanveleteAPIClient.render o).width = none) ∧
    (CanveleteAPIClient.render o).height ≠ some 0 ∧
    (∀ h : Int, o.height = some h → h ≠ 0 →
      (CanveleteAPIClient.render o).height = some h) ∧
    ((o.height = some 0 ∨ o.height = none) →
      (CanveleteAPIClient.render o).height = none) := by
  refine ⟨?_, ?_, ?_, ?_, ?_, ?_, ?_, ?_⟩
  · intro q hq hnz
    simp only [CanveleteAPIClient.render, hq]
    rw [if_neg hnz]
  · rintro (hq | hq) <;> simp [CanveleteAPIClient.render, hq]
  · rcases hw : o.width with _ | w
    · simp [CanveleteAPIClient.render, hw, intTruthy]
    · by_cases hz : w = 0
      · simp [CanveleteAPIClient.render, hw, intTruthy, hz]
      · simp [CanveleteAPIClient.render, hw, intTruthy, hz]
  · intro w hw hnz
    simp [CanveleteAPIClient.render, hw, intTruthy, hnz]
  · rintro (hw | hw) <;> simp [CanveleteAPIClient.render, hw, intTruthy]
  · rcases hh : o.height with _ | ht
    · simp [CanveleteAPIClient.render, hh, intTruthy]
    · by_cases hz : ht = 0
      · simp [CanveleteAPIClient.render, hh, intTruthy, hz]
      · simp [CanveleteAPIClient.render, hh, intTruthy, hz]
  · intro ht hh hnz
    simp [CanveleteAPIClient.render, hh, intTruthy, hnz]
  · rintro (hh | hh) <;> simp [CanveleteAPIClient.render, hh, intTruthy]

/-- Witness for the amended C9: quality 150 (outside [1,100], nonzero)
passes through; quality 0 becomes 90; an explicit width 0 is omitted. -/
theorem render_body_spec_witness :
    (CanveleteAPIClient.render
      ⟨some "d1", none, some "png", some 150, none, none, none⟩).quality = 150 ∧
    (CanveleteAPIClient.render
      ⟨some "d1", none, some "png", some 0, some "x", some 0, none⟩).quality = 90 ∧
    (CanveleteAPIClient.render
      ⟨some "d1", none, some "png", some 0, some "x", some 0, none⟩).width = none := by
  refine ⟨?_, ?_, ?_⟩
  · exact (render_body_spec
      ⟨some "d1", none, some "png", some 150, none, none, none⟩).1 150 rfl (by decide)
  · exact (render_body_spec
      ⟨some "d1", none, some "png", some 0, some "x", some 0, none⟩).2.1 (Or.inl rfl)
  · exact (render_body_spec
      ⟨some "d1", none, some "png", some 0, some "x", some 0, none⟩).2.2.2.2.1 (Or.inl rfl)

/-- Claim C10: getTemplate issues exactly the request getDesign issues -
GET /api/automation/designs/id - so the two are extensionally equal, and the
path is the designs detail endpoint, not a dedicated templates one. -/
theorem getTemplate_eq_getDesign (id : String) :
    CanveleteAPIClient.getTemplate id = CanveleteAPIClient.getDesign id ∧
    (CanveleteAPIClient.getTemplate id).path = "/api/automation/designs/" ++ id ∧
    ("/api/automation/designs/" : String) ≠ "/api/automation/templates/" :=
  ⟨rfl, rfl, by decide⟩
